/-
Verification of the billing-interval aggregation core of the
`online_subscription` repository.

The embedding below translates, at the level of values and control flow:
  * `internal/service/interface.go` — the `Service` validation layer
    (`Create`, `Get`, `Update`, `Delete`, `List`, `Sum`), including the
    behaviour of Go's `time.Parse("01-2006", s)`, `strings.TrimSpace`
    and `github.com/google/uuid`'s `Parse` on the inputs the service
    feeds them;
  * `internal/storage/storage.go` — the row-aggregation loop of
    `Storage.Sum` (the per-row clamping and month-span arithmetic).

Go `time.Time` values that flow through this subsystem are always the
first instant of a calendar month in UTC (they are produced by
`time.Parse("01-2006", _)`); we model `time.Time` as a record of
calendar components with the lexicographic order that `Before`/`After`
induce on such values.  Machine integers (`int`, `int64`) are modelled
as `Int`; none of the verified paths can overflow 64 bits on the
inputs the parser admits (years ≤ 9999, months ≤ 12).
-/
import Mathlib

deriving instance DecidableEq for Except

namespace OnlineSubscription

/-! ### Characters and digits (Go byte-level helpers) -/

/-- Go's digit test `'0' <= c && c <= '9'` used by `time.Parse`. -/
def isDigitChar (c : Char) : Bool := 48 ≤ c.toNat && c.toNat ≤ 57

/-- Numeric value of a digit character. -/
def digitVal (c : Char) : Nat := c.toNat - 48

/-! ### The `time.Time` model -/

/-- Calendar components of a Go `time.Time` in UTC.  `Before`/`After` on
times built from components compare these lexicographically. -/
structure Time where
  year : Nat
  month : Nat
  day : Nat
  hour : Nat
  minute : Nat
  second : Nat
deriving DecidableEq, Repr

/-- The value `time.Parse("01-2006", _)` produces: first day of the
month, midnight UTC. -/
def Time.ofMonth (y m : Nat) : Time := ⟨y, m, 1, 0, 0, 0⟩

/-- Go's `a.Before(b)`: lexicographic comparison of the calendar
components (equivalent to instant comparison for normalized UTC
values). -/
def Time.before (a b : Time) : Bool :=
  if a.year ≠ b.year then decide (a.year < b.year)
  else if a.month ≠ b.month then decide (a.month < b.month)
  else if a.day ≠ b.day then decide (a.day < b.day)
  else if a.hour ≠ b.hour then decide (a.hour < b.hour)
  else if a.minute ≠ b.minute then decide (a.minute < b.minute)
  else decide (a.second < b.second)

/-- Go's `a.After(b)`, i.e. `b < a`. -/
def Time.after (a b : Time) : Bool := b.before a

/-! ### `time.Parse("01-2006", s)`

Go's layout `"01-2006"` demands exactly two digits of month, a literal
hyphen, exactly four digits of year, and no leftover input; the parsed
month must lie in 1..12.  Every byte position of a successful parse is
examined and must be ASCII, so the byte-level Go parse coincides with
this character-level one. -/

def parseMonthChars : List Char → Option Time
  | [a, b, s, c, d, e, f] =>
    if s = '-' && isDigitChar a && isDigitChar b
        && isDigitChar c && isDigitChar d && isDigitChar e && isDigitChar f then
      let m := digitVal a * 10 + digitVal b
      let y := digitVal c * 1000 + digitVal d * 100 + digitVal e * 10 + digitVal f
      if 1 ≤ m && m ≤ 12 then some (Time.ofMonth y m) else none
    else none
  | _ => none

/-- `time.Parse("01-2006", s)` as used by the service layer: `some t`
on success, `none` when Go returns an error. -/
def parseMonth (s : String) : Option Time := parseMonthChars s.data

/-! ### The `Storage.Sum` aggregation loop (`internal/storage/storage.go`) -/

/-- One row scanned by `Storage.Sum`: `price, start_date, end_date`
(`end_date` nullable). -/
structure SumRow where
  price : Int
  startDate : Time
  endDate : Option Time
deriving DecidableEq, Repr

/-- `from` after the clamp `if startDate.After(from) { from = startDate }`. -/
def effectiveFrom (qFrom : Time) (r : SumRow) : Time :=
  if r.startDate.after qFrom then r.startDate else qFrom

/-- `to` after the clamp `if endDate != nil && endDate.Before(to) { to = *endDate }`. -/
def effectiveTo (qTo : Time) (r : SumRow) : Time :=
  match r.endDate with
  | some e => if e.before qTo then e else qTo
  | none => qTo

/-- `months := (y2-y1)*12 + int(m2-m1) + 1` in `Storage.Sum`. -/
def monthsSpan (f t : Time) : Int :=
  ((t.year : Int) - (f.year : Int)) * 12 + ((t.month : Int) - (f.month : Int)) + 1

/-- What one scanned row adds to `total` in `Storage.Sum`: 0 when the
clamped interval is empty (`from.After(to)` → `continue`), 0 when the
defensive `months < 0` guard fires, otherwise `price * months`. -/
def rowContribution (qFrom qTo : Time) (r : SumRow) : Int :=
  if (effectiveFrom qFrom r).after (effectiveTo qTo r) then 0
  else if monthsSpan (effectiveFrom qFrom r) (effectiveTo qTo r) < 0 then 0
  else r.price * monthsSpan (effectiveFrom qFrom r) (effectiveTo qTo r)

/-- The accumulation loop of `Storage.Sum` over the scanned rows. -/
def storageSum (qFrom qTo : Time) (rows : List SumRow) : Int :=
  rows.foldl (fun total r => total + rowContribution qFrom qTo r) 0

/-! ### `strings.TrimSpace` -/

/-- Go's `unicode.IsSpace`: the Unicode White_Space code points. -/
def goIsSpace (c : Char) : Bool :=
  (9 ≤ c.toNat && c.toNat ≤ 13) || c.toNat = 32 || c.toNat = 0x85 || c.toNat = 0xA0
    || c.toNat = 0x1680 || (0x2000 ≤ c.toNat && c.toNat ≤ 0x200A)
    || c.toNat = 0x2028 || c.toNat = 0x2029 || c.toNat = 0x202F
    || c.toNat = 0x205F || c.toNat = 0x3000

/-- Go's `strings.TrimSpace`: strip leading and trailing White_Space. -/
def trimSpace (s : String) : String :=
  ⟨(((s.data.dropWhile goIsSpace).reverse.dropWhile goIsSpace).reverse)⟩

/-! ### `uuid.Parse` (github.com/google/uuid)

`Parse` accepts the canonical 36-character form, the same wrapped in a
`urn:uuid:` prefix (length 45) or in two extra characters (length 38 —
the wrapper characters themselves are never inspected), and the bare
32-hex-digit form.  Modelled at character level; every character a
successful Go parse inspects is ASCII. -/

def isHexDigitChar (c : Char) : Bool :=
  (48 ≤ c.toNat && c.toNat ≤ 57) || (97 ≤ c.toNat && c.toNat ≤ 102)
    || (65 ≤ c.toNat && c.toNat ≤ 70)

/-- Character at index `i`, a NUL placeholder out of range (out-of-range
reads never occur on the lengths `uuidParseOk` checks first). -/
def charAt (cs : List Char) (i : Nat) : Char := cs.getD i ⟨0, by decide⟩

/-- `xtob(s[x], s[x+1])` succeeds: both characters are hex digits. -/
def hexPairOk (cs : List Char) (x : Nat) : Bool :=
  isHexDigitChar (charAt cs x) && isHexDigitChar (charAt cs (x + 1))

/-- The hyphen-placement and hex checks run on a 36-character window. -/
def uuid36Ok (cs : List Char) : Bool :=
  charAt cs 8 = '-' && charAt cs 13 = '-' && charAt cs 18 = '-' && charAt cs 23 = '-'
    && [0, 2, 4, 6, 9, 11, 14, 16, 19, 21, 24, 26, 28, 30, 32, 34].all (hexPairOk cs)

/-- ASCII-case-insensitive character comparison (`strings.EqualFold` on
the ASCII prefix `"urn:uuid:"`). -/
def asciiFoldEq (a b : Char) : Bool :=
  a = b || (a.toNat + 32 = b.toNat && 65 ≤ a.toNat && a.toNat ≤ 90)
    || (b.toNat + 32 = a.toNat && 65 ≤ b.toNat && b.toNat ≤ 90)

/-- Whether `uuid.Parse(s)` succeeds. -/
def uuidParseOk (s : String) : Bool :=
  let cs := s.data
  if cs.length = 36 then uuid36Ok cs
  else if cs.length = 45 then
    (List.zip (cs.take 9) "urn:uuid:".data).all (fun p => asciiFoldEq p.1 p.2)
      && uuid36Ok (cs.drop 9)
  else if cs.length = 38 then uuid36Ok (cs.drop 1)
  else if cs.length = 32 then
    [0, 2, 4, 6, 8, 10, 12, 14, 16, 18, 20, 22, 24, 26, 28, 30].all (hexPairOk cs)
  else false

/-! ### Domain models (`internal/models`, `internal/service/dto.go`) -/

/-- `models.Subscription`. -/
structure Subscription where
  id : Int
  serviceName : String
  price : Int
  userID : String
  startDate : Time
  endDate : Option Time
deriving DecidableEq, Repr

/-- `models.SumSubscription`. -/
structure SumFilter where
  userID : String
  serviceName : String
  From : Time
  To : Time
deriving DecidableEq, Repr

/-- `service.CreateSubscription` (handler-facing DTO). -/
structure CreateSubscription where
  serviceName : String
  price : Int
  userID : String
  startDate : String
  endDate : Option String
deriving DecidableEq, Repr

/-- `service.FilterForSumSubscription`. -/
structure SumRequest where
  userID : String
  serviceName : String
  From : String
  To : String
deriving DecidableEq, Repr

/-! ### Errors and the repository collaborator -/

/-- The service layer's sentinel errors, plus the shapes of errors a
repository call can surface through the service. -/
inductive Err where
  | invalidID
  | invalidServiceName
  | invalidPrice
  | invalidUserID
  | invalidStartDate
  | invalidEndDate
  | subscriptionNotFound
  | repoNoRows
  | repoFailure
deriving DecidableEq, Repr

/-- The validation errors of §7 (the kinds produced before any
repository call). -/
def isValidationErr : Err → Bool
  | .invalidID | .invalidServiceName | .invalidPrice | .invalidUserID
  | .invalidStartDate | .invalidEndDate => true
  | _ => false

/-- Errors a repository method can return.  The real `Storage` returns
either `sql.ErrNoRows` or a wrapped driver error, never one of the
service's sentinel errors. -/
inductive RepoErr where
  | noRows
  | failure
deriving DecidableEq, Repr

/-- Which repository method a service call invoked, in order. -/
inductive RepoCall where
  | create
  | get
  | update
  | delete
  | list
  | sum
deriving DecidableEq, Repr

/-- The `SubscriptionRepository` collaborator, as pure response
functions. -/
structure Repo where
  create : Subscription → Except RepoErr Int
  get : Int → Except RepoErr Subscription
  update : Subscription → Except RepoErr Unit
  delete : Int → Except RepoErr Unit
  list : String → Except RepoErr (List Subscription)
  sum : SumFilter → Except RepoErr Int

/-- Passthrough of a repository error (`return nil, err`). -/
def passErr : RepoErr → Err
  | .noRows => .repoNoRows
  | .failure => .repoFailure

/-- `errors.Is(err, sql.ErrNoRows)` mapping used by `Get`, `Update`,
`Delete`. -/
def mapNoRows : RepoErr → Err
  | .noRows => .subscriptionNotFound
  | .failure => .repoFailure

/-! ### The service operations (`internal/service/interface.go`)

Each operation returns its Go result together with the list of
repository methods it invoked, so that "no repository method has been
invoked" is expressible. -/

/-- The end-date block of `Service.Create`/`Service.Update`: `nil` or
`""` leaves `end = nil`; otherwise the value must parse and must not be
before `start`. -/
def normalizeOptionalEnd (endField : Option String) (start : Time) :
    Except Err (Option Time) :=
  match endField with
  | some es =>
    if es ≠ "" then
      match parseMonth es with
      | none => .error .invalidEndDate
      | some e => if e.before start then .error .invalidEndDate else .ok (some e)
    else .ok none
  | none => .ok none

/-- `Service.Create`. -/
def serviceCreate (repo : Repo) (data : CreateSubscription) :
    Except Err Subscription × List RepoCall :=
  let name := trimSpace data.serviceName
  if name = "" then (.error .invalidServiceName, [])
  else if data.price ≤ 0 then (.error .invalidPrice, [])
  else if ¬ uuidParseOk data.userID then (.error .invalidUserID, [])
  else
    match parseMonth data.startDate with
    | none => (.error .invalidStartDate, [])
    | some start =>
      match normalizeOptionalEnd data.endDate start with
      | .error e => (.error e, [])
      | .ok endOpt =>
        let sub : Subscription :=
          { id := 0, serviceName := name, price := data.price, userID := data.userID
            startDate := start, endDate := endOpt }
        match repo.create sub with
        | .error e => (.error (passErr e), [.create])
        | .ok newId => (.ok { sub with id := newId }, [.create])

/-- `Service.Get`. -/
def serviceGet (repo : Repo) (id : Int) :
    Except Err Subscription × List RepoCall :=
  if id ≤ 0 then (.error .invalidID, [])
  else
    match repo.get id with
    | .error e => (.error (mapNoRows e), [.get])
    | .ok sub => (.ok sub, [.get])

/-- `Service.Update`. -/
def serviceUpdate (repo : Repo) (id : Int) (data : CreateSubscription) :
    Except Err Unit × List RepoCall :=
  if id ≤ 0 then (.error .invalidID, [])
  else
    let name := trimSpace data.serviceName
    if name = "" then (.error .invalidServiceName, [])
    else if data.price ≤ 0 then (.error .invalidPrice, [])
    else if ¬ uuidParseOk data.userID then (.error .invalidUserID, [])
    else
      match parseMonth data.startDate with
      | none => (.error .invalidStartDate, [])
      | some start =>
        match normalizeOptionalEnd data.endDate start with
        | .error e => (.error e, [])
        | .ok endOpt =>
          let sub : Subscription :=
            { id := id, serviceName := name, price := data.price, userID := data.userID
              startDate := start, endDate := endOpt }
          match repo.update sub with
          | .error e => (.error (mapNoRows e), [.update])
          | .ok _ => (.ok (), [.update])

/-- `Service.Delete`. -/
def serviceDelete (repo : Repo) (id : Int) :
    Except Err Unit × List RepoCall :=
  if id ≤ 0 then (.error .invalidID, [])
  else
    match repo.delete id with
    | .error e => (.error (mapNoRows e), [.delete])
    | .ok _ => (.ok (), [.delete])

/-- `Service.List`. -/
def serviceList (repo : Repo) (userID : String) :
    Except Err (List Subscription) × List RepoCall :=
  if ¬ uuidParseOk userID then (.error .invalidUserID, [])
  else
    match repo.list userID with
    | .error e => (.error (passErr e), [.list])
    | .ok subs => (.ok subs, [.list])

/-- `Service.Sum`. -/
def serviceSum (repo : Repo) (filter : SumRequest) :
    Except Err Int × List RepoCall :=
  let name := trimSpace filter.serviceName
  if name = "" then (.error .invalidServiceName, [])
  else if ¬ uuidParseOk filter.userID then (.error .invalidUserID, [])
  else
    match parseMonth filter.From with
    | none => (.error .invalidStartDate, [])
    | some fromT =>
      match parseMonth filter.To with
      | none => (.error .invalidEndDate, [])
      | some toT =>
        if toT.before fromT then (.error .invalidEndDate, [])
        else
          match repo.sum { userID := filter.userID, serviceName := name
                           From := fromT, To := toT } with
          | .error e => (.error (passErr e), [.sum])
          | .ok total => (.ok total, [.sum])

/-! ### Spec-side definitions

The following definitions transcribe the *spec's* vocabulary (the exact
`MM-YYYY` pattern, the clamping formula of §4.2) so the claims can be
stated and compared against the embedded code. -/

/-- The ASCII digit character for `d ≤ 9`. -/
def digitChar (d : Nat) : Char := Char.ofNat (48 + d)

/-- The unique `MM-YYYY` rendering of a month `m` (two digits) and year
`y` (four digits). -/
def renderMonth (m y : Nat) : String :=
  ⟨[digitChar (m / 10), digitChar (m % 10), '-',
    digitChar (y / 1000), digitChar (y / 100 % 10), digitChar (y / 10 % 10),
    digitChar (y % 10)]⟩

/-- `s` is exactly the `MM-YYYY` form of month `m` (01–12) and
four-digit year `y`. -/
def monthPattern (s : String) (m y : Nat) : Prop :=
  1 ≤ m ∧ m ≤ 12 ∧ y ≤ 9999 ∧ s = renderMonth m y

/-- Strict (year, month) lexicographic order on month pairs — the
spec's `CanonicalMonth` ordering. -/
def monthLt (a b : Nat × Nat) : Bool :=
  decide (a.1 < b.1 ∨ (a.1 = b.1 ∧ a.2 < b.2))

/-- The spec's inclusive month span between two month pairs. -/
def pairSpan (a b : Nat × Nat) : Int :=
  ((b.1 : Int) - (a.1 : Int)) * 12 + ((b.2 : Int) - (a.2 : Int)) + 1

/-- The spec's effective start: `max(s.start, query.from)`. -/
def specEffStart (qFrom start : Nat × Nat) : Nat × Nat :=
  if monthLt qFrom start then start else qFrom

/-- The spec's effective end: `query.to` when open, else
`min(s.end, query.to)`. -/
def specEffEnd (qTo : Nat × Nat) (endOpt : Option (Nat × Nat)) : Nat × Nat :=
  match endOpt with
  | some e => if monthLt e qTo then e else qTo
  | none => qTo

/-- The claim's per-row cost, amended with the overlap guard of §4.2
step 3: `price * span(effStart, effEnd)` when `effStart ≤ effEnd`,
otherwise 0. -/
def specContribution (qFrom qTo : Nat × Nat) (p : Int) (start : Nat × Nat)
    (endOpt : Option (Nat × Nat)) : Int :=
  if monthLt (specEffEnd qTo endOpt) (specEffStart qFrom start) then 0
  else p * pairSpan (specEffStart qFrom start) (specEffEnd qTo endOpt)

/-! ### Concrete collaborators for witnesses -/

/-- A repository whose every method fails with a generic error. -/
def failRepo : Repo :=
  { create := fun _ => .error .failure, get := fun _ => .error .failure
    update := fun _ => .error .failure, delete := fun _ => .error .failure
    list := fun _ => .error .failure, sum := fun _ => .error .failure }

/-- A repository whose every method succeeds with a fixed value. -/
def okRepo : Repo :=
  { create := fun _ => .ok 1, get := fun _ => .ok
      { id := 1, serviceName := "netflix", price := 100, userID := ""
        startDate := Time.ofMonth 2024 1, endDate := none }
    update := fun _ => .ok (), delete := fun _ => .ok ()
    list := fun _ => .ok [], sum := fun _ => .ok 0 }

/-- A syntactically valid canonical UUID string. -/
def sampleUUID : String := "123e4567-e89b-12d3-a456-426614174000"

/-- The subscription `okRepo`'s `Create` produces for the sample
request (id 1 from the repository). -/
def sampleSub : Subscription :=
  { id := 1, serviceName := "netflix", price := 100, userID := sampleUUID,
    startDate := Time.ofMonth 2024 1, endDate := some (Time.ofMonth 2024 3) }

/-! ### Helper lemmas -/

lemma isDigitChar_digitChar (d : Nat) (h : d ≤ 9) : isDigitChar (digitChar d) = true := by
  interval_cases d <;> decide

lemma digitVal_digitChar (d : Nat) (h : d ≤ 9) : digitVal (digitChar d) = d := by
  interval_cases d <;> decide

lemma isDigitChar_toNat {c : Char} (h : isDigitChar c = true) :
    48 ≤ c.toNat ∧ c.toNat ≤ 57 := by
  simpa [isDigitChar] using h

lemma digitChar_digitVal {c : Char} (h : isDigitChar c = true) : digitChar (digitVal c) = c := by
  have h1 := isDigitChar_toNat h
  have h2 : 48 + digitVal c = c.toNat := by unfold digitVal; omega
  rw [digitChar, h2, Char.ofNat_toNat]

lemma digitVal_le {c : Char} (h : isDigitChar c = true) : digitVal c ≤ 9 := by
  have h1 := isDigitChar_toNat h
  unfold digitVal; omega

lemma renderMonth_data (m y : Nat) :
    (renderMonth m y).data = [digitChar (m / 10), digitChar (m % 10), '-',
      digitChar (y / 1000), digitChar (y / 100 % 10), digitChar (y / 10 % 10),
      digitChar (y % 10)] := rfl

/-- Soundness half of the round-trip: the parser accepts every exact
`MM-YYYY` rendering and yields its (year, month). -/
lemma parseMonth_render (m y : Nat) (hm1 : 1 ≤ m) (hm2 : m ≤ 12) (hy : y ≤ 9999) :
    parseMonth (renderMonth m y) = some (Time.ofMonth y m) := by
  have h1 : m / 10 ≤ 9 := by omega
  have h2 : m % 10 ≤ 9 := by omega
  have h3 : y / 1000 ≤ 9 := by omega
  have h4 : y / 100 % 10 ≤ 9 := by omega
  have h5 : y / 10 % 10 ≤ 9 := by omega
  have h6 : y % 10 ≤ 9 := by omega
  unfold parseMonth
  rw [renderMonth_data]
  simp only [parseMonthChars, isDigitChar_digitChar _ h1, isDigitChar_digitChar _ h2,
    isDigitChar_digitChar _ h3, isDigitChar_digitChar _ h4, isDigitChar_digitChar _ h5,
    isDigitChar_digitChar _ h6, digitVal_digitChar _ h1, digitVal_digitChar _ h2,
    digitVal_digitChar _ h3, digitVal_digitChar _ h4, digitVal_digitChar _ h5,
    digitVal_digitChar _ h6]
  have hm : m / 10 * 10 + m % 10 = m := by omega
  have hyy : y / 1000 * 1000 + y / 100 % 10 * 100 + y / 10 % 10 * 10 + y % 10 = y := by omega
  rw [hm, hyy]
  simp [hm1, hm2]

/-- Completeness half: a successful parse only happens on an exact
`MM-YYYY` rendering. -/
lemma parseMonthChars_some (cs : List Char) (t : Time) (h : parseMonthChars cs = some t) :
    ∃ m y, 1 ≤ m ∧ m ≤ 12 ∧ y ≤ 9999 ∧ cs = (renderMonth m y).data ∧ t = Time.ofMonth y m := by
  match cs with
  | [] => simp [parseMonthChars] at h
  | [a] => simp [parseMonthChars] at h
  | [a, b] => simp [parseMonthChars] at h
  | [a, b, s3] => simp [parseMonthChars] at h
  | [a, b, s3, c] => simp [parseMonthChars] at h
  | [a, b, s3, c, d] => simp [parseMonthChars] at h
  | [a, b, s3, c, d, e] => simp [parseMonthChars] at h
  | a :: b :: s3 :: c :: d :: e :: f :: g :: rest => simp [parseMonthChars] at h
  | [a, b, s3, c, d, e, f] =>
    simp only [parseMonthChars] at h
    split at h
    case isTrue hcond =>
      split at h
      case isTrue hm =>
        rw [Option.some_inj] at h
        obtain ⟨hs3, ha, hb, hc, hd, he, hf⟩ : s3 = '-' ∧ isDigitChar a = true ∧
            isDigitChar b = true ∧ isDigitChar c = true ∧ isDigitChar d = true ∧
            isDigitChar e = true ∧ isDigitChar f = true := by
          simpa [Bool.and_eq_true, and_assoc] using hcond
        obtain ⟨hm1, hm2⟩ : 1 ≤ digitVal a * 10 + digitVal b ∧
            digitVal a * 10 + digitVal b ≤ 12 := by
          simpa [Bool.and_eq_true] using hm
        have la := digitVal_le ha
        have lb := digitVal_le hb
        have lc := digitVal_le hc
        have ld := digitVal_le hd
        have le' := digitVal_le he
        have lf := digitVal_le hf
        refine ⟨digitVal a * 10 + digitVal b,
          digitVal c * 1000 + digitVal d * 100 + digitVal e * 10 + digitVal f,
          hm1, hm2, by omega, ?_, h.symm⟩
        have e1 : (digitVal a * 10 + digitVal b) / 10 = digitVal a := by omega
        have e2 : (digitVal a * 10 + digitVal b) % 10 = digitVal b := by omega
        have e3 : (digitVal c * 1000 + digitVal d * 100 + digitVal e * 10 + digitVal f) / 1000
            = digitVal c := by omega
        have e4 : (digitVal c * 1000 + digitVal d * 100 + digitVal e * 10 + digitVal f) / 100 % 10
            = digitVal d := by omega
        have e5 : (digitVal c * 1000 + digitVal d * 100 + digitVal e * 10 + digitVal f) / 10 % 10
            = digitVal e := by omega
        have e6 : (digitVal c * 1000 + digitVal d * 100 + digitVal e * 10 + digitVal f) % 10
            = digitVal f := by omega
        rw [renderMonth_data, e1, e2, e3, e4, e5, e6, digitChar_digitVal ha,
          digitChar_digitVal hb, digitChar_digitVal hc, digitChar_digitVal hd,
          digitChar_digitVal he, digitChar_digitVal hf, hs3]
      case isFalse => exact absurd h (by simp)
    case isFalse => exact absurd h (by simp)

/-- Full characterization of `time.Parse("01-2006", _)` success. -/
lemma parseMonth_some_iff (s : String) (t : Time) :
    parseMonth s = some t ↔ ∃ m y, monthPattern s m y ∧ t = Time.ofMonth y m := by
  constructor
  · intro h
    obtain ⟨m, y, h1, h2, h3, h4, h5⟩ := parseMonthChars_some s.data t h
    exact ⟨m, y, ⟨h1, h2, h3, by cases s; simpa using congrArg String.mk h4⟩, h5⟩
  · rintro ⟨m, y, ⟨h1, h2, h3, rfl⟩, rfl⟩
    exact parseMonth_render m y h1 h2 h3

/-- `Before` on canonical months is (year, month) lexicographic order. -/
lemma before_ofMonth (y1 m1 y2 m2 : Nat) :
    (Time.ofMonth y1 m1).before (Time.ofMonth y2 m2) = monthLt (y1, m1) (y2, m2) := by
  by_cases hy : y1 = y2 <;> by_cases hm : m1 = m2 <;>
    simp [Time.before, Time.ofMonth, monthLt, hy, hm]

lemma after_ofMonth (y1 m1 y2 m2 : Nat) :
    (Time.ofMonth y1 m1).after (Time.ofMonth y2 m2) = monthLt (y2, m2) (y1, m1) := by
  rw [Time.after, before_ofMonth]

/-- The `Storage.Sum` loop is the sum of per-row contributions. -/
lemma storageSum_eq_map_sum (qf qt : Time) (rows : List SumRow) :
    storageSum qf qt rows = (rows.map (rowContribution qf qt)).sum := by
  have key : ∀ (l : List SumRow) (a : Int),
      l.foldl (fun tot r => tot + rowContribution qf qt r) a
        = a + (l.map (rowContribution qf qt)).sum := by
    intro l
    induction l with
    | nil => simp
    | cons x xs ih => intro a; simp only [List.foldl_cons, List.map_cons, List.sum_cons, ih]; ring
  simpa using key rows 0

lemma pairSpan_pos (a b : Nat × Nat) (ha1 : 1 ≤ a.2) (ha2 : a.2 ≤ 12)
    (hb1 : 1 ≤ b.2) (hb2 : b.2 ≤ 12) (h : monthLt b a = false) : 1 ≤ pairSpan a b := by
  simp only [monthLt, decide_eq_false_iff_not, not_or, not_and, not_lt] at h
  unfold pairSpan
  omega

/-- On canonical-month rows the code's per-row computation coincides
with the spec's guarded clamping formula. -/
lemma rowContribution_eq_spec (fy fm ty tm sy sm : Nat) (p : Int) (e : Option (Nat × Nat))
    (hfm : 1 ≤ fm ∧ fm ≤ 12) (htm : 1 ≤ tm ∧ tm ≤ 12) (hsm : 1 ≤ sm ∧ sm ≤ 12)
    (he : ∀ x ∈ e, 1 ≤ x.2 ∧ x.2 ≤ 12) :
    rowContribution (Time.ofMonth fy fm) (Time.ofMonth ty tm)
      ⟨p, Time.ofMonth sy sm, e.map (fun x => Time.ofMonth x.1 x.2)⟩
      = specContribution (fy, fm) (ty, tm) p (sy, sm) e := by
  have hes : effectiveFrom (Time.ofMonth fy fm)
        ⟨p, Time.ofMonth sy sm, e.map (fun x => Time.ofMonth x.1 x.2)⟩
      = Time.ofMonth (specEffStart (fy, fm) (sy, sm)).1 (specEffStart (fy, fm) (sy, sm)).2 := by
    show (if (Time.ofMonth sy sm).after (Time.ofMonth fy fm) = true
        then Time.ofMonth sy sm else Time.ofMonth fy fm) = _
    rw [after_ofMonth]
    unfold specEffStart
    by_cases h : monthLt (fy, fm) (sy, sm) = true
    · rw [if_pos h, if_pos h]
    · rw [if_neg h, if_neg h]
  have hee : effectiveTo (Time.ofMonth ty tm)
        ⟨p, Time.ofMonth sy sm, e.map (fun x => Time.ofMonth x.1 x.2)⟩
      = Time.ofMonth (specEffEnd (ty, tm) e).1 (specEffEnd (ty, tm) e).2 := by
    cases e with
    | none => rfl
    | some x =>
      obtain ⟨xa, xb⟩ := x
      have hred : specEffEnd (ty, tm) (some (xa, xb))
          = if monthLt (xa, xb) (ty, tm) = true then (xa, xb) else (ty, tm) := rfl
      show (if (Time.ofMonth xa xb).before (Time.ofMonth ty tm) = true
          then Time.ofMonth xa xb else Time.ofMonth ty tm)
        = Time.ofMonth (specEffEnd (ty, tm) (some (xa, xb))).1 (specEffEnd (ty, tm) (some (xa, xb))).2
      rw [before_ofMonth, hred]
      by_cases h : monthLt (xa, xb) (ty, tm) = true
      · simp [h]
      · simp [Bool.eq_false_iff.mpr h]
  have hesb : 1 ≤ (specEffStart (fy, fm) (sy, sm)).2 ∧ (specEffStart (fy, fm) (sy, sm)).2 ≤ 12 := by
    unfold specEffStart
    split
    · exact hsm
    · exact hfm
  have heeb : 1 ≤ (specEffEnd (ty, tm) e).2 ∧ (specEffEnd (ty, tm) e).2 ≤ 12 := by
    cases e with
    | none => exact htm
    | some x =>
      obtain ⟨xa, xb⟩ := x
      have hx := he (xa, xb) rfl
      have hred : specEffEnd (ty, tm) (some (xa, xb))
          = if monthLt (xa, xb) (ty, tm) = true then (xa, xb) else (ty, tm) := rfl
      rw [hred]
      split
      · exact hx
      · exact htm
  have hspan : monthsSpan
        (Time.ofMonth (specEffStart (fy, fm) (sy, sm)).1 (specEffStart (fy, fm) (sy, sm)).2)
        (Time.ofMonth (specEffEnd (ty, tm) e).1 (specEffEnd (ty, tm) e).2)
      = pairSpan (specEffStart (fy, fm) (sy, sm)) (specEffEnd (ty, tm) e) := rfl
  unfold rowContribution specContribution
  rw [hes, hee, after_ofMonth, hspan]
  by_cases hg : monthLt (specEffEnd (ty, tm) e) (specEffStart (fy, fm) (sy, sm)) = true
  · rw [if_pos hg, if_pos hg]
  · have hpos := pairSpan_pos _ _ hesb.1 hesb.2 heeb.1 heeb.2 (Bool.eq_false_iff.mpr hg)
    rw [if_neg hg, if_neg hg,
      if_neg (by omega : ¬ pairSpan (specEffStart (fy, fm) (sy, sm)) (specEffEnd (ty, tm) e) < 0)]

end OnlineSubscription
namespace OnlineSubscription

lemma rowContribution_nonneg (qf qt : Time) (r : SumRow) (hp : 0 ≤ r.price) :
    0 ≤ rowContribution qf qt r := by
  by_cases h1 : (effectiveFrom qf r).after (effectiveTo qt r) = true
  · unfold rowContribution
    rw [if_pos h1]
  · by_cases h2 : monthsSpan (effectiveFrom qf r) (effectiveTo qt r) < 0
    · unfold rowContribution
      rw [if_neg h1, if_pos h2]
    · unfold rowContribution
      rw [if_neg h1, if_neg h2]
      exact mul_nonneg hp (by omega)

/-- C1 (counterexample): for the query 2024-01..2024-03 and the row
price=100, start=2024-05, end=open, the claimed formula gives
`100 * span = -100`, but the aggregator contributes 0. -/
theorem overlap_formula_counterexample :
    rowContribution (Time.ofMonth 2024 1) (Time.ofMonth 2024 3)
        ⟨100, Time.ofMonth 2024 5, none⟩ = 0 ∧
    (100 : Int) * pairSpan (2024, 5) (2024, 3) = -100 ∧
    storageSum (Time.ofMonth 2024 1) (Time.ofMonth 2024 3)
        [⟨100, Time.ofMonth 2024 5, none⟩] = 0 := by decide

/-- C1 (amended): on canonical months, a row's contribution is
`price * span(effectiveStart, effectiveEnd)` when the clamped interval
is non-empty and 0 otherwise; in particular the spec's two scenario
rows contribute 300 and 50, with combined total 350. -/
theorem overlap_contribution_formula (fy fm ty tm sy sm : Nat) (p : Int)
    (e : Option (Nat × Nat))
    (hfm : 1 ≤ fm ∧ fm ≤ 12) (htm : 1 ≤ tm ∧ tm ≤ 12) (hsm : 1 ≤ sm ∧ sm ≤ 12)
    (he : ∀ x ∈ e, 1 ≤ x.2 ∧ x.2 ≤ 12) :
    rowContribution (Time.ofMonth fy fm) (Time.ofMonth ty tm)
        ⟨p, Time.ofMonth sy sm, e.map (fun x => Time.ofMonth x.1 x.2)⟩
      = specContribution (fy, fm) (ty, tm) p (sy, sm) e ∧
    storageSum (Time.ofMonth 2024 1) (Time.ofMonth 2024 3)
        [⟨100, Time.ofMonth 2024 1, none⟩] = 300 ∧
    storageSum (Time.ofMonth 2024 1) (Time.ofMonth 2024 3)
        [⟨50, Time.ofMonth 2024 2, some (Time.ofMonth 2024 2)⟩] = 50 ∧
    storageSum (Time.ofMonth 2024 1) (Time.ofMonth 2024 3)
        [⟨100, Time.ofMonth 2024 1, none⟩,
         ⟨50, Time.ofMonth 2024 2, some (Time.ofMonth 2024 2)⟩] = 350 :=
  ⟨rowContribution_eq_spec fy fm ty tm sy sm p e hfm htm hsm he, by decide, by decide, by decide⟩

/-- C1 (witness): the amended formula evaluated at the second scenario
row. -/
theorem overlap_contribution_formula_witness :
    rowContribution (Time.ofMonth 2024 1) (Time.ofMonth 2024 3)
        ⟨50, Time.ofMonth 2024 2, some (2024, 2) |>.map (fun x => Time.ofMonth x.1 x.2)⟩
      = specContribution (2024, 1) (2024, 3) 50 (2024, 2) (some (2024, 2)) :=
  (overlap_contribution_formula 2024 1 2024 3 2024 2 50 (some (2024, 2))
    (by decide) (by decide) (by decide) (by decide)).1

/-- C4: with a valid start month, a `nil` or empty end field normalizes
to the open end; a parsed end strictly before the start fails with
`ErrInvalidEndDate`; a parsed end not before the start (equality
included) is accepted. -/
theorem optional_end_normalization (start : Time) :
    normalizeOptionalEnd none start = .ok none ∧
    normalizeOptionalEnd (some "") start = .ok none ∧
    (∀ es e, parseMonth es = some e → e.before start = true →
      normalizeOptionalEnd (some es) start = .error .invalidEndDate) ∧
    (∀ es e, parseMonth es = some e → e.before start = false →
      normalizeOptionalEnd (some es) start = .ok (some e)) ∧
    (∀ es, parseMonth es = some start → normalizeOptionalEnd (some es) start = .ok (some start)) := by
  have hne : ∀ (es : String) (e : Time), parseMonth es = some e → es ≠ "" := by
    intro es e hp hemp
    rw [hemp] at hp
    simp [parseMonth, parseMonthChars] at hp
  have hirr : ∀ t : Time, t.before t = false := by
    intro t
    simp [Time.before]
  refine ⟨rfl, rfl, ?_, ?_, ?_⟩
  · intro es e hp hb
    simp [normalizeOptionalEnd, hne es e hp, hp, hb]
  · intro es e hp hb
    simp [normalizeOptionalEnd, hne es e hp, hp, hb]
  · intro es hp
    simp [normalizeOptionalEnd, hne es start hp, hp, hirr start]

end OnlineSubscription
namespace OnlineSubscription

/-- C5: once both ends of a Sum query parse, `to < from` fails with
`ErrInvalidEndDate` and no repository call; `to >= from` passes
normalization and reaches the repository's `Sum`. -/
theorem sum_interval_order (repo : Repo) (f : SumRequest) (fm tm : Time)
    (hname : trimSpace f.serviceName ≠ "") (huid : uuidParseOk f.userID = true)
    (hf : parseMonth f.From = some fm) (ht : parseMonth f.To = some tm) :
    (tm.before fm = true → serviceSum repo f = (.error .invalidEndDate, [])) ∧
    (tm.before fm = false →
      serviceSum repo f =
        (match repo.sum { userID := f.userID, serviceName := trimSpace f.serviceName,
                          From := fm, To := tm } with
         | .error e => (.error (passErr e), [.sum])
         | .ok total => (.ok total, [.sum]))) := by
  constructor <;> intro hb <;>
    simp [serviceSum, hname, huid, hf, ht, hb]

/-- C5 (witness): the spec scenario `from=2024-02, to=2024-01` fails
with `ErrInvalidEndDate`. -/
theorem sum_interval_order_witness :
    serviceSum failRepo ⟨sampleUUID, "netflix", "02-2024", "01-2024"⟩
      = (.error .invalidEndDate, []) :=
  (sum_interval_order failRepo ⟨sampleUUID, "netflix", "02-2024", "01-2024"⟩
    (Time.ofMonth 2024 2) (Time.ofMonth 2024 1)
    (by decide) (by decide) (by decide) (by decide)).1 (by decide)

/-- C6: the aggregated total is invariant under permutation of the
subscription rows. -/
theorem total_perm_invariant (qf qt : Time) (rows rows2 : List SumRow)
    (h : rows.Perm rows2) : storageSum qf qt rows = storageSum qf qt rows2 := by
  rw [storageSum_eq_map_sum, storageSum_eq_map_sum]
  exact (h.map (rowContribution qf qt)).sum_eq

/-- C6 (witness): swapping the spec's two scenario rows leaves the
total (350) unchanged. -/
theorem total_perm_invariant_witness :
    storageSum (Time.ofMonth 2024 1) (Time.ofMonth 2024 3)
        [⟨100, Time.ofMonth 2024 1, none⟩, ⟨50, Time.ofMonth 2024 2, some (Time.ofMonth 2024 2)⟩]
      = storageSum (Time.ofMonth 2024 1) (Time.ofMonth 2024 3)
        [⟨50, Time.ofMonth 2024 2, some (Time.ofMonth 2024 2)⟩, ⟨100, Time.ofMonth 2024 1, none⟩] ∧
    storageSum (Time.ofMonth 2024 1) (Time.ofMonth 2024 3)
        [⟨100, Time.ofMonth 2024 1, none⟩, ⟨50, Time.ofMonth 2024 2, some (Time.ofMonth 2024 2)⟩]
      = 350 :=
  ⟨total_perm_invariant _ _ _ _ (List.Perm.swap _ _ _), by decide⟩

/-- C7: a row whose clamped interval is empty contributes exactly 0,
and a row whose month span is ≤ 0 contributes exactly 0 (span < 0 is
skipped; span = 0 adds `price * 0`). -/
theorem no_overlap_contributes_zero (qf qt : Time) (r : SumRow) :
    ((effectiveFrom qf r).after (effectiveTo qt r) = true → rowContribution qf qt r = 0) ∧
    (monthsSpan (effectiveFrom qf r) (effectiveTo qt r) ≤ 0 → rowContribution qf qt r = 0) := by
  constructor
  · intro h
    unfold rowContribution
    rw [if_pos h]
  · intro h
    by_cases h1 : (effectiveFrom qf r).after (effectiveTo qt r) = true
    · unfold rowContribution
      rw [if_pos h1]
    · by_cases h2 : monthsSpan (effectiveFrom qf r) (effectiveTo qt r) < 0
      · unfold rowContribution
        rw [if_neg h1, if_pos h2]
      · have hz : monthsSpan (effectiveFrom qf r) (effectiveTo qt r) = 0 := by omega
        unfold rowContribution
        rw [if_neg h1, if_neg h2, hz, mul_zero]

/-- C8: under the spec's preconditions (positive prices, `end` open or
`end >= start`, `to >= from`) the aggregation is total and its result
is non-negative. -/
theorem total_nonneg (qf qt : Time) (rows : List SumRow)
    (hrows : ∀ r ∈ rows, 0 < r.price ∧
      (r.endDate = none ∨ ∀ e ∈ r.endDate, e.before r.startDate = false))
    (_hq : qt.before qf = false) :
    0 ≤ storageSum qf qt rows := by
  rw [storageSum_eq_map_sum]
  apply List.sum_nonneg
  intro x hx
  obtain ⟨r, hr, rfl⟩ := List.mem_map.mp hx
  exact rowContribution_nonneg qf qt r (le_of_lt (hrows r hr).1)

/-- C8 (witness): the preconditions hold for the spec's scenario rows
and the total is non-negative. -/
theorem total_nonneg_witness :
    0 ≤ storageSum (Time.ofMonth 2024 1) (Time.ofMonth 2024 3)
        [⟨100, Time.ofMonth 2024 1, none⟩, ⟨50, Time.ofMonth 2024 2, some (Time.ofMonth 2024 2)⟩] :=
  total_nonneg _ _ _ (by decide) (by decide)

end OnlineSubscription
namespace OnlineSubscription

lemma parseMonth_shape {s : String} {t : Time} (h : parseMonth s = some t) :
    t.day = 1 ∧ t.hour = 0 ∧ t.minute = 0 ∧ t.second = 0 := by
  obtain ⟨m, y, _, rfl⟩ := (parseMonth_some_iff s t).mp h
  exact ⟨rfl, rfl, rfl, rfl⟩

lemma normalizeOptionalEnd_error {eo : Option String} {st : Time} {e : Err}
    (h : normalizeOptionalEnd eo st = .error e) : e = .invalidEndDate := by
  cases eo with
  | none => simp [normalizeOptionalEnd] at h
  | some es =>
    simp only [normalizeOptionalEnd] at h
    by_cases hem : es ≠ ""
    · rw [if_pos hem] at h
      cases hp : parseMonth es with
      | none =>
        simp only [hp] at h
        simpa using h.symm
      | some t =>
        simp only [hp] at h
        split at h
        · simpa using h.symm
        · simp at h
    · rw [if_neg hem] at h
      simp at h

lemma normalizeOptionalEnd_ok_some {eo : Option String} {st : Time} {e : Time}
    (h : normalizeOptionalEnd eo st = .ok (some e)) : ∃ s', parseMonth s' = some e := by
  cases eo with
  | none => simp [normalizeOptionalEnd] at h
  | some es =>
    simp only [normalizeOptionalEnd] at h
    by_cases hem : es ≠ ""
    · rw [if_pos hem] at h
      cases hp : parseMonth es with
      | none => simp [hp] at h
      | some t =>
        simp only [hp] at h
        split at h
        · simp at h
        · simp only [Except.ok.injEq, Option.some.injEq] at h
          exact ⟨es, h ▸ hp⟩
    · rw [if_neg hem] at h
      simp at h

end OnlineSubscription
namespace OnlineSubscription

/-- C2: every exact `MM-YYYY` string parses and round-trips to its
(year, month); every other string fails, and the failure surfaces as
`ErrInvalidStartDate` in start/from position and `ErrInvalidEndDate`
in end/to position. -/
theorem month_normalization (s : String) :
    (∀ m y, monthPattern s m y → parseMonth s = some (Time.ofMonth y m)) ∧
    ((∀ m y, ¬ monthPattern s m y) → parseMonth s = none) ∧
    (parseMonth s = none →
      (∀ repo d, trimSpace d.serviceName ≠ "" → 0 < d.price →
        uuidParseOk d.userID = true → d.startDate = s →
        serviceCreate repo d = (.error .invalidStartDate, [])) ∧
      (∀ repo d st, trimSpace d.serviceName ≠ "" → 0 < d.price →
        uuidParseOk d.userID = true → parseMonth d.startDate = some st →
        d.endDate = some s → s ≠ "" →
        serviceCreate repo d = (.error .invalidEndDate, [])) ∧
      (∀ repo f, trimSpace f.serviceName ≠ "" → uuidParseOk f.userID = true →
        f.From = s → serviceSum repo f = (.error .invalidStartDate, [])) ∧
      (∀ repo f ft, trimSpace f.serviceName ≠ "" → uuidParseOk f.userID = true →
        parseMonth f.From = some ft → f.To = s →
        serviceSum repo f = (.error .invalidEndDate, []))) := by
  refine ⟨?_, ?_, ?_⟩
  · rintro m y ⟨h1, h2, h3, rfl⟩
    exact parseMonth_render m y h1 h2 h3
  · intro hnone
    cases hp : parseMonth s with
    | none => rfl
    | some t =>
      obtain ⟨m, y, hpat, _⟩ := (parseMonth_some_iff s t).mp hp
      exact absurd hpat (hnone m y)
  · intro hn
    refine ⟨?_, ?_, ?_, ?_⟩
    · intro repo d h1 h2 h3 h4
      subst h4
      have h2' : ¬ d.price ≤ 0 := by omega
      simp [serviceCreate, h1, h2', h3, hn]
    · intro repo d st h1 h2 h3 h4 h5 h6
      have h2' : ¬ d.price ≤ 0 := by omega
      simp [serviceCreate, h1, h2', h3, h4, normalizeOptionalEnd, h5, h6, hn]
    · intro repo f h1 h2 h3
      subst h3
      simp [serviceSum, h1, h2, hn]
    · intro repo f ft h1 h2 h3 h4
      subst h4
      simp [serviceSum, h1, h2, h3, hn]

end OnlineSubscription
namespace OnlineSubscription

/-- C3 (counterexample): `Update` with a non-positive id and an empty
service name (two invalid fields) returns `ErrInvalidID`, not the
`ErrInvalidServiceName` the claimed field order (service name first)
predicts. -/
theorem update_order_counterexample :
    serviceUpdate failRepo 0 ⟨"", 0, "x", "", none⟩ = (.error .invalidID, []) ∧
    Err.invalidID ≠ Err.invalidServiceName := by decide

/-- C3 (amended): validation returns the error of the first invalid
field and stops; the order is service name, price, user id, start
date, end date for Create; id first, then the same field order, for
Update; service name, user id, from, to, then the from/to ordering
check, for Sum. -/
theorem validation_first_error :
    (∀ repo d,
      (trimSpace d.serviceName = "" →
        serviceCreate repo d = (.error .invalidServiceName, [])) ∧
      (trimSpace d.serviceName ≠ "" → d.price ≤ 0 →
        serviceCreate repo d = (.error .invalidPrice, [])) ∧
      (trimSpace d.serviceName ≠ "" → ¬ d.price ≤ 0 → uuidParseOk d.userID = false →
        serviceCreate repo d = (.error .invalidUserID, [])) ∧
      (trimSpace d.serviceName ≠ "" → ¬ d.price ≤ 0 → uuidParseOk d.userID = true →
        parseMonth d.startDate = none →
        serviceCreate repo d = (.error .invalidStartDate, [])) ∧
      (∀ st, trimSpace d.serviceName ≠ "" → ¬ d.price ≤ 0 → uuidParseOk d.userID = true →
        parseMonth d.startDate = some st →
        normalizeOptionalEnd d.endDate st = .error .invalidEndDate →
        serviceCreate repo d = (.error .invalidEndDate, []))) ∧
    (∀ repo id d,
      (id ≤ 0 → serviceUpdate repo id d = (.error .invalidID, [])) ∧
      (¬ id ≤ 0 → trimSpace d.serviceName = "" →
        serviceUpdate repo id d = (.error .invalidServiceName, [])) ∧
      (¬ id ≤ 0 → trimSpace d.serviceName ≠ "" → d.price ≤ 0 →
        serviceUpdate repo id d = (.error .invalidPrice, [])) ∧
      (¬ id ≤ 0 → trimSpace d.serviceName ≠ "" → ¬ d.price ≤ 0 →
        uuidParseOk d.userID = false →
        serviceUpdate repo id d = (.error .invalidUserID, [])) ∧
      (¬ id ≤ 0 → trimSpace d.serviceName ≠ "" → ¬ d.price ≤ 0 →
        uuidParseOk d.userID = true → parseMonth d.startDate = none →
        serviceUpdate repo id d = (.error .invalidStartDate, [])) ∧
      (∀ st, ¬ id ≤ 0 → trimSpace d.serviceName ≠ "" → ¬ d.price ≤ 0 →
        uuidParseOk d.userID = true → parseMonth d.startDate = some st →
        normalizeOptionalEnd d.endDate st = .error .invalidEndDate →
        serviceUpdate repo id d = (.error .invalidEndDate, []))) ∧
    (∀ repo f,
      (trimSpace f.serviceName = "" →
        serviceSum repo f = (.error .invalidServiceName, [])) ∧
      (trimSpace f.serviceName ≠ "" → uuidParseOk f.userID = false →
        serviceSum repo f = (.error .invalidUserID, [])) ∧
      (trimSpace f.serviceName ≠ "" → uuidParseOk f.userID = true →
        parseMonth f.From = none →
        serviceSum repo f = (.error .invalidStartDate, [])) ∧
      (∀ ft, trimSpace f.serviceName ≠ "" → uuidParseOk f.userID = true →
        parseMonth f.From = some ft → parseMonth f.To = none →
        serviceSum repo f = (.error .invalidEndDate, [])) ∧
      (∀ ft tt, trimSpace f.serviceName ≠ "" → uuidParseOk f.userID = true →
        parseMonth f.From = some ft → parseMonth f.To = some tt →
        tt.before ft = true →
        serviceSum repo f = (.error .invalidEndDate, []))) := by
  refine ⟨fun repo d => ⟨?_, ?_, ?_, ?_, ?_⟩,
    fun repo id d => ⟨?_, ?_, ?_, ?_, ?_, ?_⟩,
    fun repo f => ⟨?_, ?_, ?_, ?_, ?_⟩⟩
  · intro h1
    simp [serviceCreate, h1]
  · intro h1 h2
    simp [serviceCreate, h1, h2]
  · intro h1 h2 h3
    simp [serviceCreate, h1, h2, h3]
  · intro h1 h2 h3 h4
    simp [serviceCreate, h1, h2, h3, h4]
  · intro st h1 h2 h3 h4 h5
    simp [serviceCreate, h1, h2, h3, h4, h5]
  · intro h0
    simp [serviceUpdate, h0]
  · intro h0 h1
    simp [serviceUpdate, h0, h1]
  · intro h0 h1 h2
    simp [serviceUpdate, h0, h1, h2]
  · intro h0 h1 h2 h3
    simp [serviceUpdate, h0, h1, h2, h3]
  · intro h0 h1 h2 h3 h4
    simp [serviceUpdate, h0, h1, h2, h3, h4]
  · intro st h0 h1 h2 h3 h4 h5
    simp [serviceUpdate, h0, h1, h2, h3, h4, h5]
  · intro h1
    simp [serviceSum, h1]
  · intro h1 h2
    simp [serviceSum, h1, h2]
  · intro h1 h2 h3
    simp [serviceSum, h1, h2, h3]
  · intro ft h1 h2 h3 h4
    simp [serviceSum, h1, h2, h3, h4]
  · intro ft tt h1 h2 h3 h4 h5
    simp [serviceSum, h1, h2, h3, h4, h5]

end OnlineSubscription
namespace OnlineSubscription

lemma serviceCreate_split (repo : Repo) (d : CreateSubscription) :
    (∃ e, isValidationErr e = true ∧ serviceCreate repo d = (.error e, [])) ∨
    ((serviceCreate repo d).2 = [.create] ∧
      ∀ e, (serviceCreate repo d).1 = .error e → isValidationErr e = false) := by
  by_cases h1 : trimSpace d.serviceName = ""
  · exact .inl ⟨.invalidServiceName, rfl, by simp [serviceCreate, h1]⟩
  by_cases h2 : d.price ≤ 0
  · exact .inl ⟨.invalidPrice, rfl, by simp [serviceCreate, h1, h2]⟩
  cases h3 : uuidParseOk d.userID with
  | false => exact .inl ⟨.invalidUserID, rfl, by simp [serviceCreate, h1, h2, h3]⟩
  | true =>
    cases h4 : parseMonth d.startDate with
    | none => exact .inl ⟨.invalidStartDate, rfl, by simp [serviceCreate, h1, h2, h3, h4]⟩
    | some st =>
      cases h5 : normalizeOptionalEnd d.endDate st with
      | error e =>
        have he := normalizeOptionalEnd_error h5
        subst he
        exact .inl ⟨.invalidEndDate, rfl, by simp [serviceCreate, h1, h2, h3, h4, h5]⟩
      | ok eo =>
        right
        cases hc : repo.create ⟨0, trimSpace d.serviceName, d.price, d.userID, st, eo⟩ with
        | error re =>
          refine ⟨by simp [serviceCreate, h1, h2, h3, h4, h5, hc], ?_⟩
          intro e hee
          simp [serviceCreate, h1, h2, h3, h4, h5, hc] at hee
          subst hee
          cases re <;> rfl
        | ok nid =>
          refine ⟨by simp [serviceCreate, h1, h2, h3, h4, h5, hc], ?_⟩
          intro e hee
          simp [serviceCreate, h1, h2, h3, h4, h5, hc] at hee

lemma serviceGet_split (repo : Repo) (id : Int) :
    (id ≤ 0 ∧ serviceGet repo id = (.error .invalidID, [])) ∨
    ((serviceGet repo id).2 = [.get] ∧
      ∀ e, (serviceGet repo id).1 = .error e → isValidationErr e = false) := by
  by_cases h : id ≤ 0
  · exact .inl ⟨h, by simp [serviceGet, h]⟩
  right
  cases hg : repo.get id with
  | error re =>
    refine ⟨by simp [serviceGet, h, hg], ?_⟩
    intro e hee
    simp [serviceGet, h, hg] at hee
    subst hee
    cases re <;> rfl
  | ok s =>
    refine ⟨by simp [serviceGet, h, hg], ?_⟩
    intro e hee
    simp [serviceGet, h, hg] at hee

lemma serviceDelete_split (repo : Repo) (id : Int) :
    (id ≤ 0 ∧ serviceDelete repo id = (.error .invalidID, [])) ∨
    ((serviceDelete repo id).2 = [.delete] ∧
      ∀ e, (serviceDelete repo id).1 = .error e → isValidationErr e = false) := by
  by_cases h : id ≤ 0
  · exact .inl ⟨h, by simp [serviceDelete, h]⟩
  right
  cases hg : repo.delete id with
  | error re =>
    refine ⟨by simp [serviceDelete, h, hg], ?_⟩
    intro e hee
    simp [serviceDelete, h, hg] at hee
    subst hee
    cases re <;> rfl
  | ok u =>
    refine ⟨by simp [serviceDelete, h, hg], ?_⟩
    intro e hee
    simp [serviceDelete, h, hg] at hee

lemma serviceList_split (repo : Repo) (u : String) :
    (uuidParseOk u = false ∧ serviceList repo u = (.error .invalidUserID, [])) ∨
    ((serviceList repo u).2 = [.list] ∧
      ∀ e, (serviceList repo u).1 = .error e → isValidationErr e = false) := by
  cases h : uuidParseOk u with
  | false => exact .inl ⟨rfl, by simp [serviceList, h]⟩
  | true =>
    right
    cases hg : repo.list u with
    | error re =>
      refine ⟨by simp [serviceList, h, hg], ?_⟩
      intro e hee
      simp [serviceList, h, hg] at hee
      subst hee
      cases re <;> rfl
    | ok l =>
      refine ⟨by simp [serviceList, h, hg], ?_⟩
      intro e hee
      simp [serviceList, h, hg] at hee

lemma serviceUpdate_split (repo : Repo) (id : Int) (d : CreateSubscription) :
    (∃ e, isValidationErr e = true ∧ serviceUpdate repo id d = (.error e, [])) ∨
    ((serviceUpdate repo id d).2 = [.update] ∧
      ∀ e, (serviceUpdate repo id d).1 = .error e → isValidationErr e = false) := by
  by_cases h0 : id ≤ 0
  · exact .inl ⟨.invalidID, rfl, by simp [serviceUpdate, h0]⟩
  by_cases h1 : trimSpace d.serviceName = ""
  · exact .inl ⟨.invalidServiceName, rfl, by simp [serviceUpdate, h0, h1]⟩
  by_cases h2 : d.price ≤ 0
  · exact .inl ⟨.invalidPrice, rfl, by simp [serviceUpdate, h0, h1, h2]⟩
  cases h3 : uuidParseOk d.userID with
  | false => exact .inl ⟨.invalidUserID, rfl, by simp [serviceUpdate, h0, h1, h2, h3]⟩
  | true =>
    cases h4 : parseMonth d.startDate with
    | none => exact .inl ⟨.invalidStartDate, rfl, by simp [serviceUpdate, h0, h1, h2, h3, h4]⟩
    | some st =>
      cases h5 : normalizeOptionalEnd d.endDate st with
      | error e =>
        have he := normalizeOptionalEnd_error h5
        subst he
        exact .inl ⟨.invalidEndDate, rfl, by simp [serviceUpdate, h0, h1, h2, h3, h4, h5]⟩
      | ok eo =>
        right
        cases hc : repo.update ⟨id, trimSpace d.serviceName, d.price, d.userID, st, eo⟩ with
        | error re =>
          refine ⟨by simp [serviceUpdate, h0, h1, h2, h3, h4, h5, hc], ?_⟩
          intro e hee
          simp [serviceUpdate, h0, h1, h2, h3, h4, h5, hc] at hee
          subst hee
          cases re <;> rfl
        | ok u =>
          refine ⟨by simp [serviceUpdate, h0, h1, h2, h3, h4, h5, hc], ?_⟩
          intro e hee
          simp [serviceUpdate, h0, h1, h2, h3, h4, h5, hc] at hee

lemma serviceSum_split (repo : Repo) (f : SumRequest) :
    (∃ e, isValidationErr e = true ∧ serviceSum repo f = (.error e, [])) ∨
    ((serviceSum repo f).2 = [.sum] ∧
      ∀ e, (serviceSum repo f).1 = .error e → isValidationErr e = false) := by
  by_cases h1 : trimSpace f.serviceName = ""
  · exact .inl ⟨.invalidServiceName, rfl, by simp [serviceSum, h1]⟩
  cases h2 : uuidParseOk f.userID with
  | false => exact .inl ⟨.invalidUserID, rfl, by simp [serviceSum, h1, h2]⟩
  | true =>
    cases h3 : parseMonth f.From with
    | none => exact .inl ⟨.invalidStartDate, rfl, by simp [serviceSum, h1, h2, h3]⟩
    | some ft =>
      cases h4 : parseMonth f.To with
      | none => exact .inl ⟨.invalidEndDate, rfl, by simp [serviceSum, h1, h2, h3, h4]⟩
      | some tt =>
        by_cases h5 : tt.before ft = true
        · exact .inl ⟨.invalidEndDate, rfl, by simp [serviceSum, h1, h2, h3, h4, h5]⟩
        · right
          cases hc : repo.sum ⟨f.userID, trimSpace f.serviceName, ft, tt⟩ with
          | error re =>
            refine ⟨by simp [serviceSum, h1, h2, h3, h4, h5, hc], ?_⟩
            intro e hee
            simp [serviceSum, h1, h2, h3, h4, h5, hc] at hee
            subst hee
            cases re <;> rfl
          | ok t =>
            refine ⟨by simp [serviceSum, h1, h2, h3, h4, h5, hc], ?_⟩
            intro e hee
            simp [serviceSum, h1, h2, h3, h4, h5, hc] at hee

end OnlineSubscription
namespace OnlineSubscription

/-- C9: a non-positive id fails `Get`/`Update`/`Delete` with
`ErrInvalidID`, and any call that returns a validation error has
invoked no repository method. -/
theorem validation_error_no_repo_call (repo : Repo) :
    (∀ id : Int, id ≤ 0 →
      serviceGet repo id = (.error .invalidID, []) ∧
      serviceDelete repo id = (.error .invalidID, []) ∧
      (∀ d, serviceUpdate repo id d = (.error .invalidID, []))) ∧
    (∀ d e, (serviceCreate repo d).1 = .error e → isValidationErr e = true →
      (serviceCreate repo d).2 = []) ∧
    (∀ id d e, (serviceUpdate repo id d).1 = .error e → isValidationErr e = true →
      (serviceUpdate repo id d).2 = []) ∧
    (∀ id e, (serviceGet repo id).1 = .error e → isValidationErr e = true →
      (serviceGet repo id).2 = []) ∧
    (∀ id e, (serviceDelete repo id).1 = .error e → isValidationErr e = true →
      (serviceDelete repo id).2 = []) ∧
    (∀ u e, (serviceList repo u).1 = .error e → isValidationErr e = true →
      (serviceList repo u).2 = []) ∧
    (∀ f e, (serviceSum repo f).1 = .error e → isValidationErr e = true →
      (serviceSum repo f).2 = []) := by
  refine ⟨?_, ?_, ?_, ?_, ?_, ?_, ?_⟩
  · intro id h
    exact ⟨by simp [serviceGet, h], by simp [serviceDelete, h],
      fun d => by simp [serviceUpdate, h]⟩
  · intro d e h1 h2
    rcases serviceCreate_split repo d with ⟨e2, _, heq⟩ | ⟨_, himp⟩
    · rw [heq]
    · exact absurd h2 (by simp [himp e h1])
  · intro id d e h1 h2
    rcases serviceUpdate_split repo id d with ⟨e2, _, heq⟩ | ⟨_, himp⟩
    · rw [heq]
    · exact absurd h2 (by simp [himp e h1])
  · intro id e h1 h2
    rcases serviceGet_split repo id with ⟨_, heq⟩ | ⟨_, himp⟩
    · rw [heq]
    · exact absurd h2 (by simp [himp e h1])
  · intro id e h1 h2
    rcases serviceDelete_split repo id with ⟨_, heq⟩ | ⟨_, himp⟩
    · rw [heq]
    · exact absurd h2 (by simp [himp e h1])
  · intro u e h1 h2
    rcases serviceList_split repo u with ⟨_, heq⟩ | ⟨_, himp⟩
    · rw [heq]
    · exact absurd h2 (by simp [himp e h1])
  · intro f e h1 h2
    rcases serviceSum_split repo f with ⟨e2, _, heq⟩ | ⟨_, himp⟩
    · rw [heq]
    · exact absurd h2 (by simp [himp e h1])

/-- C10: a successful `Create` returns the trimmed service name, the
unchanged price and user id, and canonical first-instant-of-month
dates, whose comparison is exactly (year, month) ordering. -/
theorem create_result_canonical (repo : Repo) (d : CreateSubscription)
    (sub : Subscription) (calls : List RepoCall)
    (h : serviceCreate repo d = (.ok sub, calls)) :
    sub.serviceName = trimSpace d.serviceName ∧
    sub.price = d.price ∧
    sub.userID = d.userID ∧
    parseMonth d.startDate = some sub.startDate ∧
    sub.startDate.day = 1 ∧ sub.startDate.hour = 0 ∧ sub.startDate.minute = 0 ∧
      sub.startDate.second = 0 ∧
    (∀ e, sub.endDate = some e →
      e.day = 1 ∧ e.hour = 0 ∧ e.minute = 0 ∧ e.second = 0) ∧
    (∀ y1 m1 y2 m2, (Time.ofMonth y1 m1).before (Time.ofMonth y2 m2) = true ↔
      (y1 < y2 ∨ (y1 = y2 ∧ m1 < m2))) := by
  by_cases h1 : trimSpace d.serviceName = ""
  · simp [serviceCreate, h1] at h
  by_cases h2 : d.price ≤ 0
  · simp [serviceCreate, h1, h2] at h
  cases h3 : uuidParseOk d.userID with
  | false => simp [serviceCreate, h1, h2, h3] at h
  | true =>
  cases h4 : parseMonth d.startDate with
  | none => simp [serviceCreate, h1, h2, h3, h4] at h
  | some st =>
  cases h5 : normalizeOptionalEnd d.endDate st with
  | error e => simp [serviceCreate, h1, h2, h3, h4, h5] at h
  | ok eo =>
  cases hc : repo.create ⟨0, trimSpace d.serviceName, d.price, d.userID, st, eo⟩ with
  | error re => simp [serviceCreate, h1, h2, h3, h4, h5, hc] at h
  | ok nid =>
    simp [serviceCreate, h1, h2, h3, h4, h5, hc, Prod.ext_iff] at h
    obtain ⟨hsub, hcalls⟩ := h
    subst hsub
    refine ⟨rfl, rfl, rfl, rfl, (parseMonth_shape h4).1, (parseMonth_shape h4).2.1,
      (parseMonth_shape h4).2.2.1, (parseMonth_shape h4).2.2.2, ?_, ?_⟩
    · intro e hend
      rw [show (⟨nid, trimSpace d.serviceName, d.price, d.userID, st, eo⟩ : Subscription).endDate = eo from rfl] at hend
      rw [hend] at h5
      obtain ⟨s', hs'⟩ := normalizeOptionalEnd_ok_some h5
      exact parseMonth_shape hs'
    · intro y1 m1 y2 m2
      simp [before_ofMonth, monthLt]

end OnlineSubscription

namespace OnlineSubscription

/-- C10 (witness): a concrete successful `Create` returns the trimmed
name and the unchanged price. -/
theorem create_result_canonical_witness :
    sampleSub.serviceName = trimSpace " netflix " ∧ sampleSub.price = 100 := by
  have t := create_result_canonical okRepo ⟨" netflix ", 100, sampleUUID, "01-2024", some "03-2024"⟩
    sampleSub [.create] (by decide)
  exact ⟨t.1, t.2.1⟩

end OnlineSubscription
